import Mathlib

/-!
Verification of the poemtab poem-service layer
(`src/chrome-extension/src/services/asset.ts`) and the background
message relay, as a shallow embedding in Lean 4.

JavaScript-level behaviour that matters to the service layer is modelled
explicitly: string fields of loosely typed JSON payloads are `Option String`
(`none` = `undefined`), `||`-defaulting treats the empty string as falsy,
`parseInt` returns `NaN` on non-numeric input, and `String.prototype.replace`
with a string pattern replaces only the first occurrence.

Network and storage I/O is modelled with oracles (`NetOracle`, `Store`) and
each operation additionally returns the ordered list of I/O effects it
performs (`Effect`), which records which endpoint is fetched, with which
timeout configuration, and which persistent keys are read or written.
-/

set_option autoImplicit false

namespace Poemtab

instance {ε α : Type} [DecidableEq ε] [DecidableEq α] : DecidableEq (Except ε α) :=
  fun x y =>
  match x, y with
  | .error a, .error b =>
    if h : a = b then .isTrue (by rw [h])
    else .isFalse (by intro hc; cases hc; exact h rfl)
  | .ok a, .ok b =>
    if h : a = b then .isTrue (by rw [h])
    else .isFalse (by intro hc; cases hc; exact h rfl)
  | .error _, .ok _ => .isFalse fun hc => Except.noConfusion hc
  | .ok _, .error _ => .isFalse fun hc => Except.noConfusion hc

/-! ## JavaScript primitive models -/

/-- A JS number restricted to the values this codebase produces: an integer
or `NaN` (the result of `parseInt` on non-numeric input). -/
inductive JSNum where
  | int (n : Int)
  | nan
  deriving DecidableEq, Repr

/-- JS template-literal stringification of a `JSNum` (`NaN` prints as "NaN"). -/
def jsNumToString : JSNum → String
  | .int n => toString n
  | .nan => "NaN"

/-- JS `a || d` for a possibly-undefined string `a`: `undefined` and the empty
string are falsy, so both fall back to the default. -/
def jsOr (v : Option String) (d : String) : String :=
  match v with
  | none => d
  | some s => if s = "" then d else s

/-- JS string coercion of a possibly-undefined string (template literals print
`undefined` as "undefined"). -/
def jsToString : Option String → String
  | none => "undefined"
  | some s => s

/-- Whether the first list starts with the second. -/
def listStartsWith : List Char → List Char → Bool
  | _, [] => true
  | [], _ :: _ => false
  | c :: cs, p :: ps => c == p && listStartsWith cs ps

/-- JS `String.prototype.startsWith`. -/
def jsStartsWith (s pat : String) : Bool :=
  listStartsWith s.data pat.data

/-- Replace the first occurrence of `pat` in `s` by `repl` (character lists). -/
def replaceFirstList (pat repl : List Char) : List Char → List Char
  | [] => if pat = [] then repl else []
  | c :: cs =>
    if pat = [] then repl ++ c :: cs
    else if listStartsWith (c :: cs) pat then repl ++ (c :: cs).drop pat.length
    else c :: replaceFirstList pat repl cs

/-- JS `String.prototype.replace` with a string pattern: replaces only the
first occurrence. -/
def jsReplaceFirst (s pat repl : String) : String :=
  ⟨replaceFirstList pat.data repl.data s.data⟩

/-- Whitespace skipped by JS `parseInt`. -/
def isJsWhitespace (c : Char) : Bool :=
  c == ' ' || c == '\t' || c == '\n' || c == '\r'

/-- Hexadecimal digit test for JS `parseInt` with a `0x` prefix. -/
def isJsHexDigit (c : Char) : Bool :=
  c.isDigit || ('a' ≤ c && c ≤ 'f') || ('A' ≤ c && c ≤ 'F')

/-- Numeric value of a hexadecimal digit character. -/
def hexVal (c : Char) : Nat :=
  if c.isDigit then c.toNat - 48
  else if 'a' ≤ c && c ≤ 'f' then c.toNat - 87
  else c.toNat - 55

/-- Accumulate the longest digit run at the head of the list. -/
def parseDigitsAux (base : Nat) (isD : Char → Bool) (val : Char → Nat) :
    List Char → Nat → Nat
  | [], acc => acc
  | c :: cs, acc =>
    if isD c then parseDigitsAux base isD val cs (acc * base + val c) else acc

/-- Parse a digit run at the head of the list; `NaN` when no digit is present. -/
def jsParseIntFrom (base : Nat) (isD : Char → Bool) (val : Char → Nat) :
    List Char → JSNum
  | [] => .nan
  | c :: cs =>
    if isD c then .int (parseDigitsAux base isD val (c :: cs) 0) else .nan

/-- JS `parseInt(s)` (no radix argument): skip leading whitespace, take an
optional sign, honour a `0x`/`0X` hexadecimal prefix, parse the longest digit
run, ignore trailing garbage; `NaN` when no digit was consumed. -/
def jsParseInt (s : String) : JSNum :=
  let cs := s.data.dropWhile isJsWhitespace
  let signed : Bool × List Char :=
    match cs with
    | c :: rest =>
      if c == '-' then (true, rest)
      else if c == '+' then (false, rest)
      else (false, cs)
    | [] => (false, [])
  let res :=
    match signed.2 with
    | '0' :: x :: rest =>
      if x == 'x' || x == 'X' then jsParseIntFrom 16 isJsHexDigit hexVal rest
      else jsParseIntFrom 10 Char.isDigit (fun c => c.toNat - 48) signed.2
    | _ => jsParseIntFrom 10 Char.isDigit (fun c => c.toNat - 48) signed.2
  match res with
  | .nan => .nan
  | .int n => .int (if signed.1 then -n else n)

/-- `Math.floor` on the rationals (modelling JS numbers on the fetch paths,
where only values of the form `random * length` are floored). -/
def mathFloor (q : ℚ) : Int := ⌊q⌋

/-- UTF-8 byte sequence of a character, as natural numbers. -/
def utf8Bytes (c : Char) : List Nat :=
  let n := c.toNat
  if n < 128 then [n]
  else if n < 2048 then [192 + n / 64, 128 + n % 64]
  else if n < 65536 then [224 + n / 4096, 128 + (n / 64) % 64, 128 + n % 64]
  else [240 + n / 262144, 128 + (n / 4096) % 64, 128 + (n / 64) % 64, 128 + n % 64]

/-- Uppercase hexadecimal digit for a value below 16. -/
def hexDigitChar (n : Nat) : Char :=
  if n < 10 then Char.ofNat (48 + n) else Char.ofNat (55 + n)

/-- Characters left unescaped by JS `encodeURIComponent`. -/
def isUnescapedURIChar (c : Char) : Bool :=
  ('A' ≤ c && c ≤ 'Z') || ('a' ≤ c && c ≤ 'z') || ('0' ≤ c && c ≤ '9') ||
  c == '-' || c == '_' || c == '.' || c == '!' || c == '~' || c == '*' ||
  c.toNat == 39 || c == '(' || c == ')'

/-- Percent-encoding of one byte, with uppercase hexadecimal digits. -/
def percentEncodeByte (b : Nat) : List Char :=
  ['%', hexDigitChar (b / 16), hexDigitChar (b % 16)]

/-- JS `encodeURIComponent`: unescaped characters pass through, everything
else is percent-encoded as UTF-8 bytes. -/
def encodeURIComponent (s : String) : String :=
  ⟨s.data.flatMap fun c =>
    if isUnescapedURIChar c then [c] else (utf8Bytes c).flatMap percentEncodeByte⟩

/-! ## Data model (`AssetData`, sample set, upstream payload shapes) -/

/-- The poem-language tag (`'chinese' | 'english'` in the source). -/
inductive Language where
  | chinese
  | english
  deriving DecidableEq, Repr

/-- The `AssetData` record of `asset.ts`. All string fields are
`Option String` because the loosely typed mappings can leave any of them
`undefined` (e.g. `content: data.content` when the upstream omits `content`);
`language` is the optional language tag. Fields never assigned by a given
mapping default to `none`, matching an absent property. -/
structure AssetData where
  title : Option String := none
  content : Option String := none
  author : Option String := none
  dynasty : Option String := none
  translation : Option String := none
  source : Option String := none
  link : Option String := none
  language : Option Language := none
  deriving DecidableEq, Repr

/-- The hardcoded `SAMPLE_POEMS` list of `asset.ts` (five entries; note that
no entry carries a `language` tag). -/
def SAMPLE_POEMS : List AssetData := [
  { title := some "静夜思",
    content := some "床前明月光，\n疑是地上霜。\n举头望明月，\n低头思故乡。",
    author := some "李白",
    dynasty := some "唐",
    translation := some "夜深人静的时候，看见月光洒在窗前的地上，好像地上结了一层白霜。抬头仰望那明亮的月亮，低头不禁想起远方的家乡。",
    source := some "全唐诗",
    link := some "https://so.gushiwen.cn/shiwenv_45c396367f59.aspx" },
  { title := some "登鹳雀楼",
    content := some "白日依山尽，\n黄河入海流。\n欲穷千里目，\n更上一层楼。",
    author := some "王之涣",
    dynasty := some "唐",
    translation := some "夕阳依傍着山脉慢慢地沉没，黄河朝着东海滚滚地奔流。如果想要看到千里之外的风光，那就要再登上一层楼。",
    source := some "全唐诗",
    link := some "https://so.gushiwen.cn/shiwenv_c90ff9ea5a71.aspx" },
  { title := some "春晓",
    content := some "春眠不觉晓，\n处处闻啼鸟。\n夜来风雨声，\n花落知多少。",
    author := some "孟浩然",
    dynasty := some "唐",
    translation := some "春天里睡得正香，不知不觉天已破晓。四处都能听到鸟儿在歌唱。夜里刮风下雨的声音很响，不知道有多少花儿被风雨打落。",
    source := some "全唐诗",
    link := some "https://so.gushiwen.cn/shiwenv_5744c8530a77.aspx" },
  { title := some "相思",
    content := some "红豆生南国，\n春来发几枝？\n愿君多采撷，\n此物最相思。",
    author := some "王维",
    dynasty := some "唐",
    translation := some "红豆生长在南方，春天来临时长出多少枝？希望你多采摘一些，因为这是最能表达相思之情的东西。",
    source := some "全唐诗",
    link := some "https://so.gushiwen.cn/shiwenv_6d23f9ea661b.aspx" },
  { title := some "望庐山瀑布",
    content := some "日照香炉生紫烟，\n遥看瀑布挂前川。\n飞流直下三千尺，\n疑是银河落九天。",
    author := some "李白",
    dynasty := some "唐",
    translation := some "阳光照射着香炉峰，峰顶升起紫色的烟云。远远望去，庐山的瀑布挂在山前的溪流上。瀑布飞流直泻三千尺，好像是银河从九天之上倾泻而下。",
    source := some "全唐诗",
    link := some "https://so.gushiwen.cn/shiwenv_4c6721b21a9f.aspx" }
]

/-- Parsed JSON body returned by the jinrishici (Chinese poem) API; every
field may be absent. -/
structure ChinesePayload where
  origin : Option String := none
  content : Option String := none
  author : Option String := none
  dynasty : Option String := none
  deriving DecidableEq, Repr

/-- The `lines` property of a PoetryDB entry: an array of strings, a raw
string, or absent (`Array.isArray` distinguishes the first case). -/
inductive LinesField where
  | arr (l : List String)
  | str (s : String)
  | undef
  deriving DecidableEq, Repr

/-- One entry of a PoetryDB response array. -/
structure PoetrydbEntry where
  title : Option String := none
  author : Option String := none
  lines : LinesField := .undef
  deriving DecidableEq, Repr

/-- Parsed JSON body returned by PoetryDB: either not an array (including
`null`, which is equally rejected by the `!data || !Array.isArray(data)`
check) or an array of entries. -/
inductive EnBody where
  | notArray
  | arr (poems : List PoetrydbEntry)
  deriving DecidableEq, Repr

/-- Outcome of `fetch` + `response.json()`: a non-2xx HTTP response
(`response.ok` false, carrying `status` and `statusText`) or a parsed body. -/
inductive FetchResult (α : Type) where
  | httpError (status : Nat) (statusText : String)
  | ok (body : α)
  deriving DecidableEq, Repr

/-- The endpoint a fetch is addressed to, with its raw parameters (URL
rendering, including URL-escaping of the author name, is `targetUrl`). -/
inductive FetchTarget where
  | jinrishiciAll
  | jinrishiciCategory (category : String)
  | poetrydbRandom
  | poetrydbAuthor (author : String)
  | poetrydbLineCount (lineCount : JSNum)
  deriving DecidableEq, Repr

/-- The URL string each target is fetched from, exactly as built in the
source (template literals over the configured base URLs). -/
def targetUrl : FetchTarget → String
  | .jinrishiciAll => "https://v1.jinrishici.com/all.json"
  | .jinrishiciCategory category => "https://v1.jinrishici.com/" ++ category ++ ".json"
  | .poetrydbRandom => "https://poetrydb.org/random/1"
  | .poetrydbAuthor author =>
      "https://poetrydb.org/author/" ++ encodeURIComponent author ++ "/title,author,lines"
  | .poetrydbLineCount lineCount =>
      "https://poetrydb.org/linecount/" ++ jsNumToString lineCount ++ "/title,author,lines"

/-- One outbound HTTP request: its target and whether an `AbortController`
timeout (in milliseconds) is armed around it. -/
structure FetchEffect where
  target : FetchTarget
  timeoutMs : Option Nat
  deriving DecidableEq, Repr

/-- An observable I/O effect of an operation, in order of occurrence. -/
inductive Effect where
  | storeRead (key : String)
  | storeWrite (key : String)
  | fetch (e : FetchEffect)
  deriving DecidableEq, Repr

/-- The persistent state visible to the service layer: the `poemLanguage`
key of the extension storage and the `current_image_index` key of the
IndexedDB metadata store (persisted as a string). -/
structure Store where
  poemLanguage : Option Language := none
  currentIndexValue : Option String := none
  deriving DecidableEq, Repr

/-- `poemLanguageStorage.get()`: the persisted language preference with
default `'chinese'` (the storage wrapper's fallback value). -/
def poemLanguageStorageGet (s : Store) : Language :=
  s.poemLanguage.getD .chinese

/-- Oracle fixing the outcome of each possible upstream request and the
value drawn by `Math.random()` (a rational in `[0, 1)` in real executions). -/
structure NetOracle where
  zhAll : FetchResult ChinesePayload
  zhCategory : String → FetchResult ChinesePayload
  enRandom : FetchResult EnBody
  enAuthor : String → FetchResult EnBody
  enLineCount : JSNum → FetchResult EnBody
  rand : ℚ

/-! ## Operations of `asset.ts` and the background relay -/

/-- `getCurrentIndex()`: reads `current_image_index` from the metadata store;
`index ? parseInt(index) : 0`, where both an absent value and the empty
string are falsy. -/
def getCurrentIndex (store : Store) : JSNum × List Effect :=
  let eff := [Effect.storeRead "current_image_index"]
  match store.currentIndexValue with
  | none => (.int 0, eff)
  | some s => if s = "" then (.int 0, eff) else (jsParseInt s, eff)

/-- `getRandomPoem()`: fetches the jinrishici random endpoint with a 5000 ms
`AbortController` timeout and maps the payload with `||`-defaults for
`origin` and `author`; `content` is passed through undefaulted. Failures are
wrapped as `无法获取诗词数据: ...`. -/
def getRandomPoem (net : NetOracle) : Except String AssetData × List Effect :=
  let eff := [Effect.fetch { target := .jinrishiciAll, timeoutMs := some 5000 }]
  match net.zhAll with
  | .httpError status statusText =>
    (.error ("无法获取诗词数据: API请求失败: " ++ toString status ++ " " ++ statusText), eff)
  | .ok data =>
    (.ok { title := some (jsOr data.origin "无题"),
           content := data.content,
           author := some (jsOr data.author "佚名"),
           dynasty := some "",
           source := some "今日诗词 API",
           link := some "https://www.jinrishici.com/",
           language := some .chinese }, eff)

/-- `getPoem(index)`: `-1` delegates to `getRandomPoem()`; an in-range index
returns the sample entry with no I/O; anything else throws
`无效的诗词索引: index`. -/
def getPoem (net : NetOracle) (index : Int) : Except String AssetData × List Effect :=
  if index = -1 then getRandomPoem net
  else if h : 0 ≤ index ∧ index < (SAMPLE_POEMS.length : Int) then
    (.ok (SAMPLE_POEMS.get ⟨index.toNat, by
      have hl : SAMPLE_POEMS.length = 5 := rfl
      omega⟩), [])
  else
    (.error ("无效的诗词索引: " ++ toString index), [])

/-- `Array.isArray(poem.lines) ? poem.lines.join('\n') : poem.lines`. -/
def linesToContent : LinesField → Option String
  | .arr l => some (String.intercalate "\n" l)
  | .str s => some s
  | .undef => none

/-- `fetchEnglishPoem()`: fetches `/random/1`, rejects a non-array or empty
body, takes the first entry, and maps it with `||`-defaults for `title`
(`"Untitled"`) and `author` (`"Unknown"`). -/
def fetchEnglishPoem (net : NetOracle) : Except String AssetData × List Effect :=
  let eff := [Effect.fetch { target := .poetrydbRandom, timeoutMs := none }]
  match net.enRandom with
  | .httpError status _ =>
    (.error ("无法获取英文诗歌数据: PoetryDB API请求失败: " ++ toString status), eff)
  | .ok .notArray => (.error "无法获取英文诗歌数据: 无效的PoetryDB响应数据", eff)
  | .ok (.arr []) => (.error "无法获取英文诗歌数据: 无效的PoetryDB响应数据", eff)
  | .ok (.arr (poem :: _)) =>
    (.ok { title := some (jsOr poem.title "Untitled"),
           content := linesToContent poem.lines,
           author := some (jsOr poem.author "Unknown"),
           source := some "PoetryDB",
           link := some ("https://poetrydb.org/title/" ++
                         encodeURIComponent (jsToString poem.title)),
           language := some .english }, eff)

/-- Default entry standing for `poems[i]` when `i` is out of bounds, which
real executions never hit because `Math.random()` lies in `[0, 1)`. -/
def outOfBoundsEntry : PoetrydbEntry := {}

/-- `fetchPoemByAuthor(author)`: fetches the author endpoint; an HTTP error,
a non-array body and an empty result all throw (the latter two with
`未找到{author}的诗歌`); otherwise picks `poems[Math.floor(Math.random() *
poems.length)]` and maps `title`, `author` and `lines` through with no
defaults. -/
def fetchPoemByAuthor (net : NetOracle) (author : String) :
    Except String AssetData × List Effect :=
  let eff := [Effect.fetch { target := .poetrydbAuthor author, timeoutMs := none }]
  match net.enAuthor author with
  | .httpError status _ =>
    (.error ("无法获取" ++ author ++ "的诗歌数据: API请求失败: " ++ toString status), eff)
  | .ok .notArray =>
    (.error ("无法获取" ++ author ++ "的诗歌数据: 未找到" ++ author ++ "的诗歌"), eff)
  | .ok (.arr []) =>
    (.error ("无法获取" ++ author ++ "的诗歌数据: 未找到" ++ author ++ "的诗歌"), eff)
  | .ok (.arr (p :: ps)) =>
    let poems := p :: ps
    let randomIndex := mathFloor (net.rand * poems.length)
    let poem := poems.getD randomIndex.toNat outOfBoundsEntry
    (.ok { title := poem.title,
           content := linesToContent poem.lines,
           author := poem.author,
           source := some "PoetryDB",
           link := some ("https://poetrydb.org/author/" ++
                         encodeURIComponent author ++ "/title,author,lines"),
           language := some .english }, eff)

/-- `fetchPoemByLineCount(lineCount)`: like the by-author client but filtered
by line count (a JS number, possibly `NaN`); empty results throw
`未找到{lineCount}行的诗歌`; mapping has no defaults. -/
def fetchPoemByLineCount (net : NetOracle) (lineCount : JSNum) :
    Except String AssetData × List Effect :=
  let eff := [Effect.fetch { target := .poetrydbLineCount lineCount, timeoutMs := none }]
  match net.enLineCount lineCount with
  | .httpError status _ =>
    (.error ("无法获取" ++ jsNumToString lineCount ++ "行的诗歌数据: API请求失败: " ++
             toString status), eff)
  | .ok .notArray =>
    (.error ("无法获取" ++ jsNumToString lineCount ++ "行的诗歌数据: 未找到" ++
             jsNumToString lineCount ++ "行的诗歌"), eff)
  | .ok (.arr []) =>
    (.error ("无法获取" ++ jsNumToString lineCount ++ "行的诗歌数据: 未找到" ++
             jsNumToString lineCount ++ "行的诗歌"), eff)
  | .ok (.arr (p :: ps)) =>
    let poems := p :: ps
    let randomIndex := mathFloor (net.rand * poems.length)
    let poem := poems.getD randomIndex.toNat outOfBoundsEntry
    (.ok { title := poem.title,
           content := linesToContent poem.lines,
           author := poem.author,
           source := some "PoetryDB",
           link := some ("https://poetrydb.org/linecount/" ++ jsNumToString lineCount),
           language := some .english }, eff)

/-- `getRandomPoemWithLanguage()`: reads the language preference; `english`
delegates to `fetchEnglishPoem`; otherwise fetches the jinrishici random
endpoint with a plain `fetch(url)` (no `AbortController`, no timeout) and
maps the payload like `getRandomPoem`, wrapping failures as
`无法获取中文诗词数据: ...`. -/
def getRandomPoemWithLanguage (store : Store) (net : NetOracle) :
    Except String AssetData × List Effect :=
  let languagePref := poemLanguageStorageGet store
  if languagePref = Language.english then
    let r := fetchEnglishPoem net
    (r.1, Effect.storeRead "poemLanguage" :: r.2)
  else
    let eff := [Effect.storeRead "poemLanguage",
                Effect.fetch { target := .jinrishiciAll, timeoutMs := none }]
    match net.zhAll with
    | .httpError status _ =>
      (.error ("无法获取中文诗词数据: API请求失败: " ++ toString status), eff)
    | .ok data =>
      (.ok { title := some (jsOr data.origin "无题"),
             content := data.content,
             author := some (jsOr data.author "佚名"),
             dynasty := some "",
             source := some "今日诗词 API",
             link := some "https://www.jinrishici.com/",
             language := some .chinese }, eff)

/-- `getPoemByCategoryWithLanguage(category)`: reads the language preference.
Under `english`, `author/`-prefixed categories route to the by-author client
with the rest of the string (`category.replace('author/', '')`),
`linecount/`-prefixed ones route to the by-line-count client with the suffix
run through `parseInt`, and `random`, `all` and every other string fall
through to `fetchEnglishPoem`. Under `chinese`, the category is spliced into
the jinrishici URL and the payload mapped with `||`-defaults (including
`dynasty`). -/
def getPoemByCategoryWithLanguage (store : Store) (net : NetOracle)
    (category : String) : Except String AssetData × List Effect :=
  let languagePref := poemLanguageStorageGet store
  if languagePref = Language.english then
    if jsStartsWith category "author/" then
      let author := jsReplaceFirst category "author/" ""
      let r := fetchPoemByAuthor net author
      (r.1, Effect.storeRead "poemLanguage" :: r.2)
    else if jsStartsWith category "linecount/" then
      let lineCount := jsParseInt (jsReplaceFirst category "linecount/" "")
      let r := fetchPoemByLineCount net lineCount
      (r.1, Effect.storeRead "poemLanguage" :: r.2)
    else if category = "random" ∨ category = "all" then
      let r := fetchEnglishPoem net
      (r.1, Effect.storeRead "poemLanguage" :: r.2)
    else
      let r := fetchEnglishPoem net
      (r.1, Effect.storeRead "poemLanguage" :: r.2)
  else
    let eff := [Effect.storeRead "poemLanguage",
                Effect.fetch { target := .jinrishiciCategory category, timeoutMs := none }]
    match net.zhCategory category with
    | .httpError status _ =>
      (.error ("无法获取中文分类诗词数据: API请求失败: " ++ toString status), eff)
    | .ok data =>
      (.ok { title := some (jsOr data.origin "无题"),
             content := data.content,
             author := some (jsOr data.author "佚名"),
             dynasty := some (jsOr data.dynasty ""),
             source := some "今日诗词 API",
             link := some "https://www.jinrishici.com/",
             language := some .chinese }, eff)

/-- A runtime message delivered to the background script: a `type` string
plus the payload fields the known requests carry. -/
structure Request where
  type : String
  category : String := ""
  index : Int := 0
  deriving DecidableEq, Repr

/-- The `data` field of a successful response envelope: a poem record or the
current index number. -/
inductive RelayData where
  | poem (p : AssetData)
  | num (n : JSNum)
  deriving DecidableEq, Repr

/-- The `{success, data?, error?}` response envelope the relay sends back. -/
structure ResponseEnvelope where
  success : Bool
  data : Option RelayData := none
  error : Option String := none
  deriving DecidableEq, Repr

/-- Wrap an operation outcome into a response envelope:
`{success: true, data}` on resolution, `{success: false, error: message}`
on rejection. -/
def envelopePoem : Except String AssetData → ResponseEnvelope
  | .ok p => { success := true, data := some (.poem p) }
  | .error e => { success := false, error := some e }

/-- The background `handleRequest` dispatch: a `switch` on `request.type`
over `GET_RANDOM_POEM`, `GET_POEM_BY_CATEGORY`, `GET_POEM` and
`GET_CURRENT_INDEX`; every other type (there is no `SET_CURRENT_INDEX` case)
hits the `default` branch, which throws `未知的请求类型: type`, converted to
a failure envelope. -/
def handleRequest (store : Store) (net : NetOracle) (req : Request) :
    ResponseEnvelope × List Effect :=
  if req.type = "GET_RANDOM_POEM" then
    let r := getRandomPoemWithLanguage store net
    (envelopePoem r.1, r.2)
  else if req.type = "GET_POEM_BY_CATEGORY" then
    let r := getPoemByCategoryWithLanguage store net req.category
    (envelopePoem r.1, r.2)
  else if req.type = "GET_POEM" then
    let r := getPoem net req.index
    (envelopePoem r.1, r.2)
  else if req.type = "GET_CURRENT_INDEX" then
    let r := getCurrentIndex store
    ({ success := true, data := some (.num r.1) }, r.2)
  else
    ({ success := false, error := some ("未知的请求类型: " ++ req.type) }, [])

/-! ## Derived observations used by the theorems -/

/-- The timeout configurations of the fetch effects in a trace, in order. -/
def fetchTimeouts (l : List Effect) : List (Option Nat) :=
  l.filterMap fun e =>
    match e with
    | .fetch f => some f.timeoutMs
    | _ => none

/-- The fetch targets in a trace, in order. -/
def fetchTargets (l : List Effect) : List FetchTarget :=
  l.filterMap fun e =>
    match e with
    | .fetch f => some f.target
    | _ => none

/-- The persistent-store effects in a trace, in order. -/
def storeEffects (l : List Effect) : List Effect :=
  l.filter fun e =>
    match e with
    | .storeRead _ => true
    | .storeWrite _ => true
    | .fetch _ => false

/-- Whether an optional string is present and non-empty. -/
def isNonEmpty : Option String → Bool
  | none => false
  | some s => s ≠ ""

/-! ## Concrete environments for witnesses and counterexamples -/

/-- A fully populated jinrishici payload. -/
def sampleZhPayload : ChinesePayload :=
  { origin := some "静夜思", content := some "床前明月光", author := some "李白",
    dynasty := some "唐" }

/-- A jinrishici payload with every field absent. -/
def emptyZhPayload : ChinesePayload := {}

/-- A fully populated PoetryDB entry. -/
def sampleEnEntry : PoetrydbEntry :=
  { title := some "Ozymandias", author := some "Percy Bysshe Shelley",
    lines := .arr ["I met a traveller from an antique land", "Who said"] }

/-- A PoetryDB entry with every field absent. -/
def blankEnEntry : PoetrydbEntry := {}

/-- An oracle where every request succeeds with fully populated data. -/
def netEx : NetOracle :=
  { zhAll := .ok sampleZhPayload,
    zhCategory := fun _ => .ok sampleZhPayload,
    enRandom := .ok (.arr [sampleEnEntry]),
    enAuthor := fun _ => .ok (.arr [sampleEnEntry]),
    enLineCount := fun _ => .ok (.arr [sampleEnEntry]),
    rand := 0 }

/-- An oracle where every request succeeds but every payload field is
absent. -/
def netBlank : NetOracle :=
  { zhAll := .ok emptyZhPayload,
    zhCategory := fun _ => .ok emptyZhPayload,
    enRandom := .ok (.arr [blankEnEntry]),
    enAuthor := fun _ => .ok (.arr [blankEnEntry]),
    enLineCount := fun _ => .ok (.arr [blankEnEntry]),
    rand := 0 }

/-- An oracle whose author and line-count endpoints return empty arrays. -/
def netEmptyArrays : NetOracle :=
  { zhAll := .ok emptyZhPayload,
    zhCategory := fun _ => .ok emptyZhPayload,
    enRandom := .ok (.arr []),
    enAuthor := fun _ => .ok (.arr []),
    enLineCount := fun _ => .ok (.arr []),
    rand := 0 }

/-- A store with the language preference persisted as `english`. -/
def storeEn : Store := { poemLanguage := some .english }

/-- A store with the language preference persisted as `chinese`. -/
def storeZh : Store := { poemLanguage := some .chinese }

/-- A store with nothing persisted. -/
def storeEmpty : Store := {}

/-! ## Helper lemmas -/

theorem string_data_append (s t : String) : (s ++ t).data = s.data ++ t.data := by
  cases s
  cases t
  rfl

theorem listStartsWith_self_append (p r : List Char) :
    listStartsWith (p ++ r) p = true := by
  induction p with
  | nil => cases r <;> rfl
  | cons c cs ih => simp [listStartsWith, ih]

theorem jsStartsWith_self_append (pre rest : String) :
    jsStartsWith (pre ++ rest) pre = true := by
  unfold jsStartsWith
  rw [string_data_append]
  exact listStartsWith_self_append _ _

theorem listStartsWith_nil (l : List Char) : listStartsWith l [] = true := by
  cases l <;> rfl

theorem listStartsWith_append_of_le (xs ys ps : List Char)
    (h : ps.length ≤ xs.length) :
    listStartsWith (xs ++ ys) ps = listStartsWith xs ps := by
  induction ps generalizing xs with
  | nil => rw [listStartsWith_nil, listStartsWith_nil]
  | cons p ps ih =>
    cases xs with
    | nil => simp at h
    | cons x xs =>
      simp only [List.cons_append, listStartsWith, List.append_eq]
      rw [ih xs (by simpa using h)]

theorem replaceFirstList_cancel (p r : List Char) (hp : p ≠ []) :
    replaceFirstList p [] (p ++ r) = r := by
  cases p with
  | nil => exact absurd rfl hp
  | cons q qs =>
    show replaceFirstList (q :: qs) [] (q :: (qs ++ r)) = r
    unfold replaceFirstList
    rw [if_neg (by simp), if_pos]
    · simp [List.drop_left]
    · exact listStartsWith_self_append (q :: qs) r

theorem jsReplaceFirst_cancel (pre rest : String) (hp : pre.data ≠ []) :
    jsReplaceFirst (pre ++ rest) pre "" = rest := by
  cases pre with
  | mk pl =>
  cases rest with
  | mk rl =>
  show String.mk (replaceFirstList pl [] (pl ++ rl)) = String.mk rl
  rw [replaceFirstList_cancel pl rl hp]

theorem isNonEmpty_jsOr (v : Option String) (d : String) (hd : d ≠ "") :
    isNonEmpty (some (jsOr v d)) = true := by
  cases v with
  | none => simp [jsOr, isNonEmpty, hd]
  | some s =>
    by_cases hs : s = "" <;> simp [jsOr, isNonEmpty, hs, hd]

theorem floor_rand_lt (r : ℚ) (n : Nat) (h0 : 0 ≤ r) (h1 : r < 1) (hn : 0 < n) :
    (mathFloor (r * n)).toNat < n := by
  unfold mathFloor
  have hge : (0 : Int) ≤ ⌊r * (n : ℚ)⌋ :=
    Int.floor_nonneg.mpr (mul_nonneg h0 (by positivity))
  have hlt : ⌊r * (n : ℚ)⌋ < (n : Int) := by
    apply Int.floor_lt.mpr
    push_cast
    calc r * n < 1 * n := by
          apply mul_lt_mul_of_pos_right h1
          exact_mod_cast hn
      _ = n := one_mul _
  omega

theorem getRandomPoem_effects (net : NetOracle) :
    (getRandomPoem net).2 =
      [Effect.fetch { target := .jinrishiciAll, timeoutMs := some 5000 }] := by
  unfold getRandomPoem
  cases net.zhAll <;> rfl

theorem fetchEnglishPoem_effects (net : NetOracle) :
    (fetchEnglishPoem net).2 =
      [Effect.fetch { target := .poetrydbRandom, timeoutMs := none }] := by
  unfold fetchEnglishPoem
  cases net.enRandom with
  | httpError s t => rfl
  | ok b =>
    cases b with
    | notArray => rfl
    | arr l => cases l <;> rfl

theorem fetchPoemByAuthor_effects (net : NetOracle) (author : String) :
    (fetchPoemByAuthor net author).2 =
      [Effect.fetch { target := .poetrydbAuthor author, timeoutMs := none }] := by
  unfold fetchPoemByAuthor
  cases net.enAuthor author with
  | httpError s t => rfl
  | ok b =>
    cases b with
    | notArray => rfl
    | arr l => cases l <;> rfl

theorem fetchPoemByLineCount_effects (net : NetOracle) (lineCount : JSNum) :
    (fetchPoemByLineCount net lineCount).2 =
      [Effect.fetch { target := .poetrydbLineCount lineCount, timeoutMs := none }] := by
  unfold fetchPoemByLineCount
  cases net.enLineCount lineCount with
  | httpError s t => rfl
  | ok b =>
    cases b with
    | notArray => rfl
    | arr l => cases l <;> rfl

theorem getRandomPoemWithLanguage_effects (store : Store) (net : NetOracle) :
    (getRandomPoemWithLanguage store net).2 =
      if poemLanguageStorageGet store = Language.english then
        [Effect.storeRead "poemLanguage",
         Effect.fetch { target := .poetrydbRandom, timeoutMs := none }]
      else
        [Effect.storeRead "poemLanguage",
         Effect.fetch { target := .jinrishiciAll, timeoutMs := none }] := by
  unfold getRandomPoemWithLanguage
  by_cases h : poemLanguageStorageGet store = Language.english
  · simp [h, fetchEnglishPoem_effects]
  · simp only [h, if_neg, if_false]
    cases net.zhAll <;> rfl

theorem getPoemByCategoryWithLanguage_effects (store : Store) (net : NetOracle)
    (category : String) :
    ∃ t : FetchTarget,
      (getPoemByCategoryWithLanguage store net category).2 =
        [Effect.storeRead "poemLanguage",
         Effect.fetch { target := t,
                        timeoutMs := none }] := by
  unfold getPoemByCategoryWithLanguage
  by_cases h : poemLanguageStorageGet store = Language.english
  · simp only [h, if_pos]
    by_cases ha : jsStartsWith category "author/" = true
    · exact ⟨.poetrydbAuthor (jsReplaceFirst category "author/" ""),
        by simp [ha, fetchPoemByAuthor_effects]⟩
    · by_cases hl : jsStartsWith category "linecount/" = true
      · exact ⟨.poetrydbLineCount (jsParseInt (jsReplaceFirst category "linecount/" "")),
          by simp [ha, hl, fetchPoemByLineCount_effects]⟩
      · exact ⟨.poetrydbRandom, by
          by_cases hc : category = "random" ∨ category = "all" <;>
            simp [ha, hl, hc, fetchEnglishPoem_effects]⟩
  · refine ⟨.jinrishiciCategory category, ?_⟩
    simp only [h, if_neg, if_false]
    cases net.zhCategory category <;> rfl

theorem getRandomPoem_ok_fields (net : NetOracle) (p : AssetData)
    (hp : (getRandomPoem net).1 = .ok p) :
    isNonEmpty p.title = true ∧ isNonEmpty p.author = true ∧
    p.language = some Language.chinese := by
  unfold getRandomPoem at hp
  cases hz : net.zhAll with
  | httpError s t => rw [hz] at hp; simp at hp
  | ok data =>
    rw [hz] at hp
    simp only at hp
    injection hp with hp
    rw [← hp]
    exact ⟨isNonEmpty_jsOr _ _ (by decide), isNonEmpty_jsOr _ _ (by decide), rfl⟩

theorem fetchEnglishPoem_ok_fields (net : NetOracle) (p : AssetData)
    (hp : (fetchEnglishPoem net).1 = .ok p) :
    isNonEmpty p.title = true ∧ isNonEmpty p.author = true ∧
    p.language = some Language.english ∧ p.source = some "PoetryDB" := by
  unfold fetchEnglishPoem at hp
  cases hz : net.enRandom with
  | httpError s t => rw [hz] at hp; simp at hp
  | ok b =>
    rw [hz] at hp
    cases b with
    | notArray => simp at hp
    | arr l =>
      cases l with
      | nil => simp at hp
      | cons poem rest =>
        simp only at hp
        injection hp with hp
        rw [← hp]
        exact ⟨isNonEmpty_jsOr _ _ (by decide), isNonEmpty_jsOr _ _ (by decide), rfl, rfl⟩

theorem fetchPoemByAuthor_ok_fields (net : NetOracle) (author : String)
    (p : AssetData) (hp : (fetchPoemByAuthor net author).1 = .ok p) :
    p.language = some Language.english ∧ p.source = some "PoetryDB" := by
  unfold fetchPoemByAuthor at hp
  cases hz : net.enAuthor author with
  | httpError s t => rw [hz] at hp; simp at hp
  | ok b =>
    rw [hz] at hp
    cases b with
    | notArray => simp at hp
    | arr l =>
      cases l with
      | nil => simp at hp
      | cons q qs =>
        simp only at hp
        injection hp with hp
        rw [← hp]
        exact ⟨rfl, rfl⟩

theorem fetchPoemByLineCount_ok_fields (net : NetOracle) (lineCount : JSNum)
    (p : AssetData) (hp : (fetchPoemByLineCount net lineCount).1 = .ok p) :
    p.language = some Language.english ∧ p.source = some "PoetryDB" := by
  unfold fetchPoemByLineCount at hp
  cases hz : net.enLineCount lineCount with
  | httpError s t => rw [hz] at hp; simp at hp
  | ok b =>
    rw [hz] at hp
    cases b with
    | notArray => simp at hp
    | arr l =>
      cases l with
      | nil => simp at hp
      | cons q qs =>
        simp only at hp
        injection hp with hp
        rw [← hp]
        exact ⟨rfl, rfl⟩

theorem getRandomPoemWithLanguage_ok_fields (store : Store) (net : NetOracle)
    (p : AssetData) (hp : (getRandomPoemWithLanguage store net).1 = .ok p) :
    isNonEmpty p.title = true ∧ isNonEmpty p.author = true ∧
    p.language.isSome = true := by
  by_cases h : poemLanguageStorageGet store = Language.english
  · simp only [getRandomPoemWithLanguage, h, if_true, reduceIte] at hp
    obtain ⟨h1, h2, h3, _⟩ := fetchEnglishPoem_ok_fields net p hp
    exact ⟨h1, h2, by rw [h3]; rfl⟩
  · simp only [getRandomPoemWithLanguage, h, if_false, reduceIte] at hp
    cases hz : net.zhAll with
    | httpError s t => rw [hz] at hp; simp at hp
    | ok data =>
      rw [hz] at hp
      simp only at hp
      injection hp with hp
      rw [← hp]
      exact ⟨isNonEmpty_jsOr _ _ (by decide), isNonEmpty_jsOr _ _ (by decide), rfl⟩

theorem getPoemByCategoryWithLanguage_ok_fields (store : Store) (net : NetOracle)
    (category : String) (p : AssetData)
    (hp : (getPoemByCategoryWithLanguage store net category).1 = .ok p) :
    p.language.isSome = true := by
  by_cases h : poemLanguageStorageGet store = Language.english
  · simp only [getPoemByCategoryWithLanguage, h, if_true, reduceIte] at hp
    by_cases ha : jsStartsWith category "author/" = true
    · simp only [ha, if_true, reduceIte] at hp
      obtain ⟨h1, _⟩ := fetchPoemByAuthor_ok_fields net _ p hp
      rw [h1]; rfl
    · simp only [ha, if_false, Bool.false_eq_true, reduceIte] at hp
      by_cases hl : jsStartsWith category "linecount/" = true
      · simp only [hl, if_true, reduceIte] at hp
        obtain ⟨h1, _⟩ := fetchPoemByLineCount_ok_fields net _ p hp
        rw [h1]; rfl
      · simp only [hl, if_false, Bool.false_eq_true, reduceIte] at hp
        by_cases hc : category = "random" ∨ category = "all" <;>
          simp only [hc, if_true, if_false, reduceIte] at hp <;>
          · obtain ⟨h1, h2, h3, _⟩ := fetchEnglishPoem_ok_fields net p hp
            rw [h3]; rfl
  · simp only [getPoemByCategoryWithLanguage, h, if_false, reduceIte] at hp
    cases hz : net.zhCategory category with
    | httpError s t => rw [hz] at hp; simp at hp
    | ok data =>
      rw [hz] at hp
      simp only at hp
      injection hp with hp
      rw [← hp]
      rfl

/-! ## Claim theorems -/

/-- C2 (code_bug): the background relay's `handleRequest` has no
`SET_CURRENT_INDEX` case — a `SET_CURRENT_INDEX` message with an integer
index payload falls into the `default` branch and is answered with the
failure envelope `{success: false, error: "未知的请求类型: SET_CURRENT_INDEX"}`,
performing no I/O, exactly like an unknown request type; the spec's message
table promises a success acknowledgement instead. -/
theorem set_current_index_rejected_as_unknown :
    handleRequest storeEmpty netEx { type := "SET_CURRENT_INDEX", index := 3 } =
      ({ success := false, error := some "未知的请求类型: SET_CURRENT_INDEX" }, []) ∧
    handleRequest storeEmpty netEx { type := "BOGUS_TYPE" } =
      ({ success := false, error := some "未知的请求类型: BOGUS_TYPE" }, []) := by
  decide

/-- C8 (code_bug): a `SET_CURRENT_INDEX` request never persists anything —
the relay rejects it with a failure envelope and performs no store write —
so the persisted current index stays absent and `getCurrentIndex()` returns
0, not the integer the request carried. The first half of the claim (0 when
nothing was persisted) does hold. -/
theorem current_index_never_persisted :
    (handleRequest storeEmpty netEx { type := "SET_CURRENT_INDEX", index := 5 }).1.success
      = false ∧
    storeEffects (handleRequest storeEmpty netEx
      { type := "SET_CURRENT_INDEX", index := 5 }).2 = [] ∧
    (getCurrentIndex storeEmpty).1 = JSNum.int 0 := by
  decide

/-- C4 (confirmed): for every index other than `-1`, `getPoem` returns the
exact `SAMPLE_POEMS` entry with an empty effect trace (no network call) when
`0 ≤ index < SAMPLE_POEMS.length`, and otherwise fails with the
invalid-index error carrying that index, again with no I/O. -/
theorem getPoem_local_index_spec (net : NetOracle) (index : Int)
    (hne : index ≠ -1) :
    (∀ h : 0 ≤ index ∧ index < (SAMPLE_POEMS.length : Int),
      getPoem net index =
        (.ok (SAMPLE_POEMS.get ⟨index.toNat, by
          have hl : SAMPLE_POEMS.length = 5 := rfl
          omega⟩), [])) ∧
    (¬(0 ≤ index ∧ index < (SAMPLE_POEMS.length : Int)) →
      getPoem net index =
        (.error ("无效的诗词索引: " ++ toString index), [])) := by
  constructor
  · intro h
    unfold getPoem
    rw [if_neg hne, dif_pos h]
  · intro h
    unfold getPoem
    rw [if_neg hne, dif_neg h]

/-- Witness for C4 at the concrete indices 2 (in range), 7 and -2 (out of
range, matching the spec's `getPoem(sampleSetLength)` / `getPoem(-2)`
examples up to the concrete sample length 5). -/
theorem getPoem_local_index_spec_witness :
    getPoem netEx 2 = (.ok (SAMPLE_POEMS.get ⟨2, by decide⟩), []) ∧
    getPoem netEx 7 = (.error ("无效的诗词索引: " ++ toString (7 : Int)), []) ∧
    getPoem netEx (-2) = (.error ("无效的诗词索引: " ++ toString (-2 : Int)), []) := by
  refine ⟨?_, ?_, ?_⟩
  · exact (getPoem_local_index_spec netEx 2 (by decide)).1 (by decide)
  · exact (getPoem_local_index_spec netEx 7 (by decide)).2 (by decide)
  · exact (getPoem_local_index_spec netEx (-2) (by decide)).2 (by decide)

/-- C1 (counterexample): with the language preference persisted as
`english`, `getPoem(-1)` still issues its single fetch to the Chinese
random endpoint (`jinrishici`), not to the English random client — the
routing claim fails because `getPoem(-1)` calls `getRandomPoem()`, which
never consults the preference. -/
theorem getPoem_neg_one_ignores_preference :
    poemLanguageStorageGet storeEn = Language.english ∧
    fetchTargets (getPoem netEx (-1)).2 = [FetchTarget.jinrishiciAll] ∧
    FetchTarget.poetrydbRandom ∉ fetchTargets (getPoem netEx (-1)).2 := by
  decide

/-- C1 (amended): `getPoem(-1)` delegates to `getRandomPoem()`, which always
performs exactly one fetch of the Chinese random endpoint (with the 5000 ms
timeout) regardless of any persisted language preference, and its result is
never a local sample entry. -/
theorem getPoem_neg_one_delegates_getRandomPoem (net : NetOracle) :
    getPoem net (-1) = getRandomPoem net ∧
    fetchTargets (getPoem net (-1)).2 = [FetchTarget.jinrishiciAll] ∧
    (∀ p : AssetData, (getPoem net (-1)).1 = .ok p → p ∉ SAMPLE_POEMS) := by
  have hdel : getPoem net (-1) = getRandomPoem net := by
    unfold getPoem
    rw [if_pos rfl]
  refine ⟨hdel, ?_, ?_⟩
  · rw [hdel, getRandomPoem_effects]
    rfl
  · intro p hp hmem
    rw [hdel] at hp
    have htr : p.translation = none := by
      unfold getRandomPoem at hp
      cases hz : net.zhAll with
      | httpError s t => rw [hz] at hp; simp at hp
      | ok data =>
        rw [hz] at hp
        simp only at hp
        injection hp with hp
        rw [← hp]
    have hall : ∀ q ∈ SAMPLE_POEMS, q.translation ≠ none := by decide
    exact hall p hmem htr

/-- Witness for C1's amended theorem: the delegation equation at a concrete
oracle, and the concretely computed poem record is not a sample entry. -/
theorem getPoem_neg_one_delegates_getRandomPoem_witness :
    getPoem netEx (-1) = getRandomPoem netEx ∧
    ({ title := some "静夜思", content := some "床前明月光", author := some "李白",
       dynasty := some "", source := some "今日诗词 API",
       link := some "https://www.jinrishici.com/",
       language := some Language.chinese } : AssetData) ∉ SAMPLE_POEMS := by
  have h := getPoem_neg_one_delegates_getRandomPoem netEx
  exact ⟨h.1, h.2.2 _ (by decide)⟩

/-- C7 (counterexample): with the language preference persisted as
`chinese`, `getRandomPoemWithLanguage()` performs a Chinese-client random
fetch of the jinrishici endpoint with **no** timeout configured — it uses a
plain `fetch(url)` without the `AbortController`, so the claimed 5000 ms
cancellation is absent on this path. -/
theorem withLanguage_chinese_fetch_has_no_timeout :
    poemLanguageStorageGet storeZh = Language.chinese ∧
    fetchTargets (getRandomPoemWithLanguage storeZh netEx).2 =
      [FetchTarget.jinrishiciAll] ∧
    fetchTimeouts (getRandomPoemWithLanguage storeZh netEx).2 = [none] := by
  decide

/-- C7 (amended): only `getRandomPoem()` (the Chinese random fetch reached
through `getPoem(-1)`) arms the 5000 ms `AbortController` timeout; the
chinese branch of `getRandomPoemWithLanguage()` and every other client
(`fetchEnglishPoem`, by-author, by-line-count, and both branches of
`getPoemByCategoryWithLanguage`) perform their single fetch with no explicit
timeout. -/
theorem timeout_configuration (store : Store) (net : NetOracle)
    (category author : String) (lineCount : JSNum) :
    fetchTimeouts (getRandomPoem net).2 = [some 5000] ∧
    fetchTimeouts (getPoem net (-1)).2 = [some 5000] ∧
    fetchTimeouts (getRandomPoemWithLanguage store net).2 = [none] ∧
    fetchTimeouts (getPoemByCategoryWithLanguage store net category).2 = [none] ∧
    fetchTimeouts (fetchEnglishPoem net).2 = [none] ∧
    fetchTimeouts (fetchPoemByAuthor net author).2 = [none] ∧
    fetchTimeouts (fetchPoemByLineCount net lineCount).2 = [none] := by
  refine ⟨?_, ?_, ?_, ?_, ?_, ?_, ?_⟩
  · rw [getRandomPoem_effects]; rfl
  · show fetchTimeouts (getRandomPoem net).2 = [some 5000]
    rw [getRandomPoem_effects]; rfl
  · rw [getRandomPoemWithLanguage_effects]
    by_cases h : poemLanguageStorageGet store = Language.english <;> simp [h] <;> rfl
  · obtain ⟨t, ht⟩ := getPoemByCategoryWithLanguage_effects store net category
    rw [ht]; rfl
  · rw [fetchEnglishPoem_effects]; rfl
  · rw [fetchPoemByAuthor_effects]; rfl
  · rw [fetchPoemByLineCount_effects]; rfl

/-- C9 (confirmed): no poem-fetch operation performs a persistent-store
write — their effect traces contain no `storeWrite` at all (so both
persisted keys are unchanged); `getPoem` and the raw clients touch the
store not at all, and the two preference-driven facades read exactly the
`poemLanguage` key and nothing else. -/
theorem fetch_operations_readonly (store : Store) (net : NetOracle)
    (index : Int) (category author : String) (lineCount : JSNum) :
    storeEffects (getPoem net index).2 = [] ∧
    storeEffects (getRandomPoem net).2 = [] ∧
    storeEffects (fetchEnglishPoem net).2 = [] ∧
    storeEffects (fetchPoemByAuthor net author).2 = [] ∧
    storeEffects (fetchPoemByLineCount net lineCount).2 = [] ∧
    storeEffects (getRandomPoemWithLanguage store net).2 =
      [Effect.storeRead "poemLanguage"] ∧
    storeEffects (getPoemByCategoryWithLanguage store net category).2 =
      [Effect.storeRead "poemLanguage"] := by
  refine ⟨?_, ?_, ?_, ?_, ?_, ?_, ?_⟩
  · unfold getPoem
    by_cases h1 : index = -1
    · rw [if_pos h1, getRandomPoem_effects]; rfl
    · rw [if_neg h1]
      by_cases h2 : 0 ≤ index ∧ index < (SAMPLE_POEMS.length : Int)
      · rw [dif_pos h2]; rfl
      · rw [dif_neg h2]; rfl
  · rw [getRandomPoem_effects]; rfl
  · rw [fetchEnglishPoem_effects]; rfl
  · rw [fetchPoemByAuthor_effects]; rfl
  · rw [fetchPoemByLineCount_effects]; rfl
  · rw [getRandomPoemWithLanguage_effects]
    by_cases h : poemLanguageStorageGet store = Language.english <;> simp [h] <;> rfl
  · obtain ⟨t, ht⟩ := getPoemByCategoryWithLanguage_effects store net category
    rw [ht]; rfl

/-- C5 (confirmed): under an `english` language preference,
`getPoemByCategoryWithLanguage` routes an `author/`-prefixed category to the
by-author client with the suffix as the author name, a `linecount/`-prefixed
category to the by-line-count client with the suffix run through `parseInt`,
and every category with neither prefix — including `random`, `all` and the
empty string — to the English random client, with no category-validation
error anywhere (each branch is a pure delegation). -/
theorem english_category_routing (store : Store) (net : NetOracle)
    (hpref : poemLanguageStorageGet store = Language.english) :
    (∀ rest : String,
      getPoemByCategoryWithLanguage store net ("author/" ++ rest) =
        ((fetchPoemByAuthor net rest).1,
         Effect.storeRead "poemLanguage" :: (fetchPoemByAuthor net rest).2)) ∧
    (∀ rest : String,
      getPoemByCategoryWithLanguage store net ("linecount/" ++ rest) =
        ((fetchPoemByLineCount net (jsParseInt rest)).1,
         Effect.storeRead "poemLanguage" ::
           (fetchPoemByLineCount net (jsParseInt rest)).2)) ∧
    (∀ category : String,
      jsStartsWith category "author/" = false →
      jsStartsWith category "linecount/" = false →
      getPoemByCategoryWithLanguage store net category =
        ((fetchEnglishPoem net).1,
         Effect.storeRead "poemLanguage" :: (fetchEnglishPoem net).2)) := by
  refine ⟨?_, ?_, ?_⟩
  · intro rest
    have hsw := jsStartsWith_self_append "author/" rest
    have hrepl := jsReplaceFirst_cancel "author/" rest (by decide)
    simp [getPoemByCategoryWithLanguage, hpref, hsw, hrepl]
  · intro rest
    have hsw1 : jsStartsWith ("linecount/" ++ rest) "author/" = false := by
      unfold jsStartsWith
      rw [string_data_append, listStartsWith_append_of_le _ _ _ (by decide)]
      decide
    have hsw2 := jsStartsWith_self_append "linecount/" rest
    have hrepl := jsReplaceFirst_cancel "linecount/" rest (by decide)
    simp [getPoemByCategoryWithLanguage, hpref, hsw1, hsw2, hrepl]
  · intro category h1 h2
    by_cases hc : category = "random" ∨ category = "all" <;>
      simp [getPoemByCategoryWithLanguage, hpref, h1, h2, hc]

/-- Witness for C5: concrete routing of `author/Emily Dickinson`,
`linecount/14`, `random` and the empty category under an english-preference
store. -/
theorem english_category_routing_witness :
    getPoemByCategoryWithLanguage storeEn netEx "author/Emily Dickinson" =
      ((fetchPoemByAuthor netEx "Emily Dickinson").1,
       Effect.storeRead "poemLanguage" ::
         (fetchPoemByAuthor netEx "Emily Dickinson").2) ∧
    getPoemByCategoryWithLanguage storeEn netEx "linecount/14" =
      ((fetchPoemByLineCount netEx (JSNum.int 14)).1,
       Effect.storeRead "poemLanguage" ::
         (fetchPoemByLineCount netEx (JSNum.int 14)).2) ∧
    getPoemByCategoryWithLanguage storeEn netEx "random" =
      ((fetchEnglishPoem netEx).1,
       Effect.storeRead "poemLanguage" :: (fetchEnglishPoem netEx).2) ∧
    getPoemByCategoryWithLanguage storeEn netEx "" =
      ((fetchEnglishPoem netEx).1,
       Effect.storeRead "poemLanguage" :: (fetchEnglishPoem netEx).2) := by
  have h := english_category_routing storeEn netEx (by decide)
  refine ⟨h.1 "Emily Dickinson", ?_, h.2.2 "random" (by decide) (by decide),
    h.2.2 "" (by decide) (by decide)⟩
  have h14 := h.2.1 "14"
  have : jsParseInt "14" = JSNum.int 14 := by decide
  rw [this] at h14
  exact h14

/-- C10 (confirmed): under an `english` preference, a category
`linecount/<suffix>` whose suffix does not parse as an integer is not
rejected by any validation: `parseInt` yields `NaN`, the call is delegated
verbatim to the by-line-count client with `NaN`, the single HTTP request
goes to a URL whose path contains "NaN", and when the upstream responds with
a non-empty array the operation even succeeds — any failure on this path is
an upstream one. -/
theorem linecount_nan_forwarded (store : Store) (net : NetOracle) (rest : String)
    (hpref : poemLanguageStorageGet store = Language.english)
    (hnan : jsParseInt rest = JSNum.nan) :
    getPoemByCategoryWithLanguage store net ("linecount/" ++ rest) =
      ((fetchPoemByLineCount net JSNum.nan).1,
       Effect.storeRead "poemLanguage" ::
         (fetchPoemByLineCount net JSNum.nan).2) ∧
    fetchTargets (getPoemByCategoryWithLanguage store net ("linecount/" ++ rest)).2 =
      [FetchTarget.poetrydbLineCount JSNum.nan] ∧
    targetUrl (FetchTarget.poetrydbLineCount JSNum.nan) =
      "https://poetrydb.org/linecount/" ++ "NaN" ++ "/title,author,lines" ∧
    (∀ p ps, net.enLineCount JSNum.nan = .ok (.arr (p :: ps)) →
      ∃ q : AssetData,
        (getPoemByCategoryWithLanguage store net ("linecount/" ++ rest)).1 = .ok q) := by
  have hsw1 : jsStartsWith ("linecount/" ++ rest) "author/" = false := by
    unfold jsStartsWith
    rw [string_data_append, listStartsWith_append_of_le _ _ _ (by decide)]
    decide
  have hsw2 := jsStartsWith_self_append "linecount/" rest
  have hrepl := jsReplaceFirst_cancel "linecount/" rest (by decide)
  have hroute :
      getPoemByCategoryWithLanguage store net ("linecount/" ++ rest) =
        ((fetchPoemByLineCount net JSNum.nan).1,
         Effect.storeRead "poemLanguage" ::
           (fetchPoemByLineCount net JSNum.nan).2) := by
    simp [getPoemByCategoryWithLanguage, hpref, hsw1, hsw2, hrepl, hnan]
  refine ⟨hroute, ?_, rfl, ?_⟩
  · rw [hroute]
    show fetchTargets (Effect.storeRead "poemLanguage" ::
      (fetchPoemByLineCount net JSNum.nan).2) = _
    rw [show fetchTargets (Effect.storeRead "poemLanguage" ::
          (fetchPoemByLineCount net JSNum.nan).2) =
        fetchTargets (fetchPoemByLineCount net JSNum.nan).2 from rfl,
      fetchPoemByLineCount_effects]
    rfl
  · intro p ps harr
    rw [hroute]
    unfold fetchPoemByLineCount
    rw [harr]
    exact ⟨_, rfl⟩

/-- Witness for C10 at the concrete non-numeric suffix "abc" under an
english-preference store. -/
theorem linecount_nan_forwarded_witness :
    getPoemByCategoryWithLanguage storeEn netEx ("linecount/" ++ "abc") =
      ((fetchPoemByLineCount netEx JSNum.nan).1,
       Effect.storeRead "poemLanguage" ::
         (fetchPoemByLineCount netEx JSNum.nan).2) ∧
    targetUrl (FetchTarget.poetrydbLineCount JSNum.nan) =
      "https://poetrydb.org/linecount/" ++ "NaN" ++ "/title,author,lines" := by
  have h := linecount_nan_forwarded storeEn netEx "abc" (by decide) (by decide)
  exact ⟨h.1, h.2.2.1⟩

/-- C3 (counterexample): the claimed record invariant fails on three code
paths — `getPoem(0)` returns a local sample whose `language` field is
absent; the Chinese random mapping passes a missing upstream `content`
through undefaulted; and the by-author mapping passes missing `title` and
`author` through undefaulted. -/
theorem poemRecord_invariant_counterexample :
    (getPoem netEx 0).1 = .ok (SAMPLE_POEMS.get ⟨0, by decide⟩) ∧
    (SAMPLE_POEMS.get ⟨0, by decide⟩).language = none ∧
    (getRandomPoem netBlank).1 =
      .ok { title := some "无题", content := none, author := some "佚名",
            dynasty := some "", source := some "今日诗词 API",
            link := some "https://www.jinrishici.com/",
            language := some Language.chinese } ∧
    (fetchPoemByAuthor netBlank "Emily Dickinson").1 =
      .ok { title := none, content := none, author := none,
            source := some "PoetryDB",
            link := some "https://poetrydb.org/author/Emily%20Dickinson/title,author,lines",
            language := some Language.english } := by
  refine ⟨by decide, by decide, by decide, ?_⟩
  unfold fetchPoemByAuthor
  rw [show netBlank.enAuthor "Emily Dickinson" = .ok (.arr [blankEnEntry]) from rfl]
  simp [netBlank, mathFloor, blankEnEntry, outOfBoundsEntry, linesToContent]
  rfl

/-- C3 (amended): local sample records have non-empty `title`, `content` and
`author` but carry no `language` tag; records built by the Chinese mappings
and by the English random client have non-empty `title` and `author`
(defaults substituted) and a `language` tag (`chinese` resp. `english`), but
`content` is taken from the upstream without a default; the by-author and
by-line-count clients additionally take `title`, `content` and `author` from
the upstream without defaults, tagging only `language` and `source`. -/
theorem poemRecord_field_invariants :
    (∀ p ∈ SAMPLE_POEMS, isNonEmpty p.title = true ∧ isNonEmpty p.content = true ∧
      isNonEmpty p.author = true ∧ p.language = none) ∧
    (∀ (net : NetOracle) (p : AssetData), (getRandomPoem net).1 = .ok p →
      isNonEmpty p.title = true ∧ isNonEmpty p.author = true ∧
      p.language = some Language.chinese) ∧
    (∀ (net : NetOracle) (data : ChinesePayload), net.zhAll = .ok data →
      ((getRandomPoem net).1).map AssetData.content = .ok data.content) ∧
    (∀ (store : Store) (net : NetOracle) (p : AssetData),
      (getRandomPoemWithLanguage store net).1 = .ok p →
      isNonEmpty p.title = true ∧ isNonEmpty p.author = true ∧
      p.language.isSome = true) ∧
    (∀ (store : Store) (net : NetOracle) (category : String) (p : AssetData),
      (getPoemByCategoryWithLanguage store net category).1 = .ok p →
      p.language.isSome = true) ∧
    (∀ (net : NetOracle) (p : AssetData), (fetchEnglishPoem net).1 = .ok p →
      isNonEmpty p.title = true ∧ isNonEmpty p.author = true ∧
      p.language = some Language.english) ∧
    (∀ (net : NetOracle) (author : String) (p : AssetData),
      (fetchPoemByAuthor net author).1 = .ok p →
      p.language = some Language.english ∧ p.source = some "PoetryDB") ∧
    (∀ (net : NetOracle) (lineCount : JSNum) (p : AssetData),
      (fetchPoemByLineCount net lineCount).1 = .ok p →
      p.language = some Language.english ∧ p.source = some "PoetryDB") := by
  refine ⟨by decide, ?_, ?_, ?_, ?_, ?_, ?_, ?_⟩
  · exact fun net p hp => getRandomPoem_ok_fields net p hp
  · intro net data hz
    unfold getRandomPoem
    rw [hz]
    rfl
  · exact fun store net p hp => getRandomPoemWithLanguage_ok_fields store net p hp
  · exact fun store net category p hp =>
      getPoemByCategoryWithLanguage_ok_fields store net category p hp
  · intro net p hp
    obtain ⟨h1, h2, h3, _⟩ := fetchEnglishPoem_ok_fields net p hp
    exact ⟨h1, h2, h3⟩
  · exact fun net author p hp => fetchPoemByAuthor_ok_fields net author p hp
  · exact fun net lineCount p hp => fetchPoemByLineCount_ok_fields net lineCount p hp

/-- Witness for C3's amended theorem: the field facts at a concrete oracle
whose payload is fully populated. -/
theorem poemRecord_field_invariants_witness :
    isNonEmpty (some "静夜思" : Option String) = true ∧
    isNonEmpty (some "李白" : Option String) = true ∧
    (some Language.chinese : Option Language) = some Language.chinese := by
  have h := poemRecord_field_invariants
  exact h.2.1 netEx
    { title := some "静夜思", content := some "床前明月光", author := some "李白",
      dynasty := some "", source := some "今日诗词 API",
      link := some "https://www.jinrishici.com/", language := some Language.chinese }
    (by decide)

/-- C6 (counterexample): the by-author mapping does **not** apply the English
random client's defaults — an upstream entry with `title` and `author`
absent is returned with both fields still absent, not "Untitled"/"Unknown". -/
theorem fetchPoemByAuthor_no_defaults :
    (fetchPoemByAuthor netBlank "Robert Frost").1 =
      .ok { title := none, content := none, author := none,
            source := some "PoetryDB",
            link := some "https://poetrydb.org/author/Robert%20Frost/title,author,lines",
            language := some Language.english } := by
  unfold fetchPoemByAuthor
  rw [show netBlank.enAuthor "Robert Frost" = .ok (.arr [blankEnEntry]) from rfl]
  simp [netBlank, mathFloor, blankEnEntry, outOfBoundsEntry, linesToContent]
  rfl

/-- C6 (amended): the by-author client fails with the not-found error for the
author exactly when the upstream array is empty (given an array response);
when non-empty it selects the entry at index `⌊random · n⌋` — every index is
reachable as `random` ranges over `[0, 1)` — and maps `title`, `author` and
`lines` through directly with no defaults, with `language = english` and
`source = "PoetryDB"`. -/
theorem fetchPoemByAuthor_spec (net : NetOracle) (author : String)
    (poems : List PoetrydbEntry)
    (harr : net.enAuthor author = .ok (.arr poems)) :
    (poems = [] →
      (fetchPoemByAuthor net author).1 =
        .error ("无法获取" ++ author ++ "的诗歌数据: 未找到" ++ author ++ "的诗歌")) ∧
    (∀ (hr0 : 0 ≤ net.rand) (hr1 : net.rand < 1) (hne : poems ≠ []),
      ∃ hidx : (mathFloor (net.rand * poems.length)).toNat < poems.length,
        (fetchPoemByAuthor net author).1 =
          .ok { title := (poems.get ⟨(mathFloor (net.rand * poems.length)).toNat,
                  hidx⟩).title,
                content := linesToContent
                  (poems.get ⟨(mathFloor (net.rand * poems.length)).toNat,
                    hidx⟩).lines,
                author := (poems.get ⟨(mathFloor (net.rand * poems.length)).toNat,
                  hidx⟩).author,
                source := some "PoetryDB",
                link := some ("https://poetrydb.org/author/" ++
                              encodeURIComponent author ++ "/title,author,lines"),
                language := some Language.english }) := by
  constructor
  · intro he
    subst he
    unfold fetchPoemByAuthor
    rw [harr]
  · intro hr0 hr1 hne
    cases poems with
    | nil => exact absurd rfl hne
    | cons q qs =>
      refine ⟨floor_rand_lt net.rand (q :: qs).length hr0 hr1 (by simp), ?_⟩
      unfold fetchPoemByAuthor
      rw [harr]
      simp only [List.getD_eq_get?,
        List.get?_eq_get (floor_rand_lt net.rand (q :: qs).length hr0 hr1 (by simp)),
        Option.getD_some]

/-- Witness for C6's amended theorem: the not-found failure on an empty
result array, and the concrete mapped record at `random = 0` on a singleton
result array. -/
theorem fetchPoemByAuthor_spec_witness :
    (fetchPoemByAuthor netEmptyArrays "Emily Dickinson").1 =
      .error "无法获取Emily Dickinson的诗歌数据: 未找到Emily Dickinson的诗歌" ∧
    (fetchPoemByAuthor netEx "Emily Dickinson").1 =
      .ok { title := some "Ozymandias",
            content := some "I met a traveller from an antique land\nWho said",
            author := some "Percy Bysshe Shelley",
            source := some "PoetryDB",
            link := some "https://poetrydb.org/author/Emily%20Dickinson/title,author,lines",
            language := some Language.english } := by
  constructor
  · exact (fetchPoemByAuthor_spec netEmptyArrays "Emily Dickinson" [] rfl).1 rfl
  · obtain ⟨hidx, heq⟩ :=
      (fetchPoemByAuthor_spec netEx "Emily Dickinson" [sampleEnEntry] rfl).2
        (by norm_num [netEx]) (by norm_num [netEx]) (by decide)
    simp only [netEx, mathFloor] at heq
    norm_num at heq
    exact heq

end Poemtab
